import Mathlib

/-!
# Verification of the TVM core of `financial-calculator`

Shallow embedding of the Time-Value-of-Money core of `src/app.js` over the
rationals, together with proofs settling the frozen claims about the
program.

Embedding conventions:

* JavaScript numbers are modelled as exact rationals (`ℚ`); the numeric
  literals of the source (`1e-10`, `1e-15`, `1e-6`, `0.05`, `-0.99`, ...)
  are taken at their exact decimal value.
* `Math.pow(x, e)` is modelled by `powq x e`, which agrees with the source
  whenever the exponent is an integer.  For a non-integral exponent the
  source produces a real number that has no rational counterpart; `powq`
  returns the junk value `0` there, and every theorem below stays inside
  the integral-exponent domain.  Likewise division by zero yields Lean's
  junk value `0` where JavaScript would produce `±Infinity`/`NaN`; the
  places where that distinction is control-flow relevant (explicit
  `return NaN`, division by a vanishing compound factor, `Math.log` of a
  non-positive argument) are modelled explicitly with `Option`/`NOut`.
* Functions that can produce a non-finite result return `Option ℚ`
  (`none` = `NaN`/`Infinity`); `solveN` returns an `Option NOut` where the
  constructor `NOut.lnRatio r b` stands for the real
  `Math.log(r) / Math.log(b)` produced by the lump-sum branch.
* The calculator's mutable `state` is modelled by the structure
  `CalcState`; `compute`/`computeVariable` are the state transformers of
  the source restricted to the fields they read or write (registers,
  frequencies, timing flag, `lastComputedVar`, `computeArmed`).
-/

namespace TVM

/-- `Math.pow` restricted to rational results: exact for integral exponents,
junk value `0` for fractional ones (where the source computes an
irrational real).  Theorems only use integral exponents. -/
def powq (x e : ℚ) : ℚ :=
  if e.den = 1 then x ^ e.num else 0

/-- `getPeriodicRate(nominalRate, cy, py)` from `src/app.js`:
`r = nominalRate/100`; `r/py` when `cy === py`, else
`Math.pow(1 + r/cy, cy/py) - 1`. -/
def getPeriodicRate (nominalRate cy py : ℚ) : ℚ :=
  let r := nominalRate / 100
  if cy = py then r / py else powq (1 + r / cy) (cy / py) - 1

/-- `annuityFactor(i, n, isBegin)` from `src/app.js`: `n` when
`|i| < 1e-10`, else `((1+i)^n - 1)/i`, times `(1+i)` in BGN mode. -/
def annuityFactor (i n : ℚ) (isBegin : Bool) : ℚ :=
  if |i| < 1 / 10 ^ 10 then n
  else
    let factor := (powq (1 + i) n - 1) / i
    if isBegin then factor * (1 + i) else factor

/-- `solveFV(n, i, pv, pmt, isBegin)` from `src/app.js`:
`pv * (1+i)^n + pmt * annuityFactor(i, n, isBegin)`. -/
def solveFV (n i pv pmt : ℚ) (isBegin : Bool) : ℚ :=
  let compoundFactor := powq (1 + i) n
  let af := annuityFactor i n isBegin
  pv * compoundFactor + pmt * af

/-- `solvePV(n, i, pmt, fv, isBegin)` from `src/app.js`:
`(fv - pmt*af) / (1+i)^n`; `none` models the non-finite result the source
produces when the compound factor vanishes. -/
def solvePV (n i pmt fv : ℚ) (isBegin : Bool) : Option ℚ :=
  let compoundFactor := powq (1 + i) n
  let af := annuityFactor i n isBegin
  if compoundFactor = 0 then none else some ((fv - pmt * af) / compoundFactor)

/-- `solvePMT(n, i, pv, fv, isBegin)` from `src/app.js`:
`NaN` (here `none`) when `|af| < 1e-15`, else `(fv - pv*(1+i)^n) / af`. -/
def solvePMT (n i pv fv : ℚ) (isBegin : Bool) : Option ℚ :=
  let compoundFactor := powq (1 + i) n
  let af := annuityFactor i n isBegin
  if |af| < 1 / 10 ^ 15 then none
  else some ((fv - pv * compoundFactor) / af)

/-- The closed-form annuity factor exactly as the specification words it:
`n` in the zero-rate limit, otherwise `((1+i)^n - 1)/i` multiplied by
`(1+i)` when timing is BEGIN. -/
def afSpec (i : ℚ) (n : ℕ) (isBegin : Bool) : ℚ :=
  if |i| < 1 / 10 ^ 10 then (n : ℚ)
  else ((1 + i) ^ n - 1) / i * (if isBegin then 1 + i else 1)

lemma powq_natCast (x : ℚ) (m : ℕ) : powq x (m : ℚ) = x ^ m := by
  simp [powq, Rat.den_natCast, Rat.num_natCast, zpow_natCast]

lemma annuityFactor_natCast (i : ℚ) (m : ℕ) (b : Bool) :
    annuityFactor i (m : ℚ) b = afSpec i m b := by
  unfold annuityFactor afSpec
  rw [powq_natCast]
  cases b <;> simp

/-- C1.  `solveFV` agrees with the closed form
`pv·(1+i)^n + pmt·af(i,n,begin)` for every whole number of periods `n`,
periodic rate `i`, present value `pv`, payment `pmt` and timing flag,
where `af` is the annuity factor described by the specification. -/
theorem C1_solveFV_closed_form (m : ℕ) (i pv pmt : ℚ) (b : Bool) :
    solveFV (m : ℚ) i pv pmt b = pv * (1 + i) ^ m + pmt * afSpec i m b := by
  unfold solveFV
  rw [powq_natCast, annuityFactor_natCast]

/-- C2.  Round trip: feeding the future value produced by `solveFV` back
into `solvePV` (same `n`, `i`, `pmt`, timing) recovers the original
present value exactly, whenever the compound factor `(1+i)^n` is
non-zero. -/
theorem C2_solvePV_roundtrip (m : ℕ) (i pv pmt : ℚ) (b : Bool)
    (h : (1 + i) ^ m ≠ 0) :
    solvePV (m : ℚ) i pmt (solveFV (m : ℚ) i pv pmt b) b = some pv := by
  unfold solvePV solveFV
  rw [powq_natCast]
  simp only [if_neg h]
  congr 1
  field_simp

/-- Witness for C2 at `n = 2`, `i = 1/10`, `pv = 7`, `pmt = 3`, BGN. -/
theorem C2_witness :
    ((1 + (1 : ℚ) / 10) ^ (2 : ℕ) ≠ 0) ∧
      solvePV ((2 : ℕ) : ℚ) (1 / 10) 3 (solveFV ((2 : ℕ) : ℚ) (1 / 10) 7 3 true) true =
        some 7 :=
  ⟨by norm_num, C2_solvePV_roundtrip 2 (1 / 10) 7 3 true (by norm_num)⟩

/-- Residual of the N-equation, the local `f` of `solveNNumeric`:
`fv - pv` for `n ≤ 0`, else `fv - pv*(1+i)^n - pmt*annuityFactor(i,n,isBegin)`. -/
def nResidual (i pv pmt fv : ℚ) (isBegin : Bool) (n : ℚ) : ℚ :=
  if n ≤ 0 then fv - pv
  else fv - pv * powq (1 + i) n - pmt * annuityFactor i n isBegin

/-- The geometric probe of `solveNNumeric`: the first `test` in
`1, 10, 100, 1000, 10000` with `f(test) * fLo < 0` replaces `hi`. -/
def nProbe (f : ℚ → ℚ) (fLo hi : ℚ) : List ℚ → ℚ
  | [] => hi
  | t :: ts => if f t * fLo < 0 then t else nProbe f fLo hi ts

/-- The bisection loop of `solveNNumeric` (the source re-evaluates `f(lo)`
each iteration; returns the midpoint once `|f(mid)| < 1e-10` or the fuel
is spent). -/
def nBisect (f : ℚ → ℚ) : ℕ → ℚ → ℚ → ℚ
  | 0, lo, hi => (lo + hi) / 2
  | k + 1, lo, hi =>
    let mid := (lo + hi) / 2
    let fMid := f mid
    if |fMid| < 1 / 10 ^ 10 then mid
    else if f lo * fMid < 0 then nBisect f k lo mid
    else nBisect f k mid hi

/-- `solveNNumeric(i, pv, pmt, fv, isBegin)` from `src/app.js`: bisection
over `[0.01, 1000]`, probing `1, 10, ..., 10000` for a sign change when
the initial bracket has none, then at most 100 bisection steps. -/
def solveNNumeric (i pv pmt fv : ℚ) (isBegin : Bool) : ℚ :=
  let f := nResidual i pv pmt fv isBegin
  let lo : ℚ := 1 / 100
  let hi : ℚ := 1000
  let fLo := f lo
  let fHi := f hi
  let hi' := if fLo * fHi > 0 then nProbe f fLo hi [1, 10, 100, 1000, 10000] else hi
  nBisect f 100 lo hi'

/-- Result of `solveN`'s lump-sum branch.  `num v` is an ordinary number;
`lnRatio r b` stands for the real `Math.log(r) / Math.log(b)` the source
computes (the guard of the branch ensures `r > 0`, so the numerator is
finite; the value is `NaN` exactly when `b < 0`, and `-0` when `b = 0`). -/
inductive NOut where
  | num (v : ℚ)
  | lnRatio (ratio base : ℚ)
  deriving DecidableEq

/-- Finiteness of an `NOut` as JavaScript's `isFinite` sees it:
`lnRatio r b` is `NaN` iff `Math.log(b)` is `NaN`, i.e. iff `b < 0`
(at `b = 0` the quotient is `-0`, which is finite). -/
def NOut.isFiniteN : NOut → Bool
  | .num _ => true
  | .lnRatio _ base => decide (0 ≤ base)

/-- Rational shadow of an `NOut`, used when a computed `N` is stored in a
register.  `lnRatio r b` has no rational value in general; `0` is exact
for `b = 0` (where the source's quotient is `-0`) and junk otherwise.
No theorem depends on the junk case. -/
def NOut.toVal : NOut → ℚ
  | .num v => v
  | .lnRatio _ _ => 0

/-- `solveN(i, pv, pmt, fv, isBegin)` from `src/app.js`: the zero-rate
branch, the zero-payment (lump-sum) branch, and delegation to
`solveNNumeric`.  `none` models the explicit `return NaN`s. -/
def solveN (i pv pmt fv : ℚ) (isBegin : Bool) : Option NOut :=
  if |i| < 1 / 10 ^ 10 then
    if |pmt| < 1 / 10 ^ 15 then none else some (.num ((fv - pv) / pmt))
  else if |pmt| < 1 / 10 ^ 15 then
    if |pv| < 1 / 10 ^ 15 then none
    else
      let ratio := fv / pv
      if ratio ≤ 0 then none else some (.lnRatio ratio (1 + i))
  else some (.num (solveNNumeric i pv pmt fv isBegin))

/-- `solveN` fails (produces the `NaN` sentinel) if it either returns
`NaN` explicitly or computes a `NaN` via `Math.log` of a negative
argument. -/
def solveNFails (i pv pmt fv : ℚ) (isBegin : Bool) : Prop :=
  match solveN i pv pmt fv isBegin with
  | none => True
  | some o => o.isFiniteN = false

/-- C8 counterexample.  At `i = -2`, `pv = 1`, `pmt = 0`, `fv = 2` the
lump-sum branch applies and neither of the failure conditions the claim
names holds (`|pv| ≥ 1e-15` and `fv/pv = 2 > 0`), yet the code computes
`Math.log(2)/Math.log(-1)`, which is `NaN`: the solver fails outside the
claimed failure set. -/
theorem C8_counterexample :
    ¬ |(-2 : ℚ)| < 1 / 10 ^ 10 ∧ |(0 : ℚ)| < 1 / 10 ^ 15 ∧
      ¬ (|(1 : ℚ)| < 1 / 10 ^ 15 ∨ (2 : ℚ) / 1 ≤ 0) ∧
      solveN (-2) 1 0 2 false = some (.lnRatio 2 (-1)) ∧
      solveNFails (-2) 1 0 2 false := by
  have hsolve : solveN (-2) 1 0 2 false = some (.lnRatio 2 (-1)) := by
    simp only [solveN]
    rw [if_neg (by norm_num), if_pos (by norm_num), if_neg (by norm_num),
      if_neg (by norm_num)]
    norm_num
  refine ⟨by norm_num, by norm_num, by norm_num, hsolve, ?_⟩
  unfold solveNFails
  rw [hsolve]
  simp [NOut.isFiniteN]

/-- C8 (amended).  Case analysis of `solveN`: (1) zero-rate branch
returns `(fv-pv)/pmt` and fails exactly on `|pmt| < 1e-15`; (2) lump-sum
branch returns `ln(fv/pv)/ln(1+i)` and fails exactly when
`|pv| < 1e-15`, `fv/pv ≤ 0`, **or `1 + i < 0`** (log of a negative
number); (3) otherwise it delegates to `solveNNumeric`. -/
theorem C8_solveN_cases (i pv pmt fv : ℚ) (b : Bool) :
    (|i| < 1 / 10 ^ 10 →
      solveN i pv pmt fv b =
        (if |pmt| < 1 / 10 ^ 15 then none else some (.num ((fv - pv) / pmt))) ∧
      (solveNFails i pv pmt fv b ↔ |pmt| < 1 / 10 ^ 15)) ∧
    (¬ |i| < 1 / 10 ^ 10 → |pmt| < 1 / 10 ^ 15 →
      solveN i pv pmt fv b =
        (if |pv| < 1 / 10 ^ 15 ∨ fv / pv ≤ 0 then none
         else some (.lnRatio (fv / pv) (1 + i))) ∧
      (solveNFails i pv pmt fv b ↔
        |pv| < 1 / 10 ^ 15 ∨ fv / pv ≤ 0 ∨ 1 + i < 0)) ∧
    (¬ |i| < 1 / 10 ^ 10 → ¬ |pmt| < 1 / 10 ^ 15 →
      solveN i pv pmt fv b = some (.num (solveNNumeric i pv pmt fv b))) := by
  refine ⟨fun h1 => ⟨?_, ?_⟩, fun h1 h2 => ⟨?_, ?_⟩, fun h1 h2 => ?_⟩
  · simp only [solveN]
    rw [if_pos h1]
  · unfold solveNFails
    simp only [solveN]
    rw [if_pos h1]
    by_cases h2 : |pmt| < 1 / 10 ^ 15
    · rw [if_pos h2]
      exact iff_of_true trivial h2
    · rw [if_neg h2]
      simp only [NOut.isFiniteN]
      exact iff_of_false (by simp) h2
  · simp only [solveN]
    rw [if_neg h1, if_pos h2]
    by_cases h3 : |pv| < 1 / 10 ^ 15
    · rw [if_pos h3, if_pos (Or.inl h3)]
    · rw [if_neg h3]
      by_cases h4 : fv / pv ≤ 0
      · rw [if_pos h4, if_pos (Or.inr h4)]
      · rw [if_neg h4, if_neg (by tauto)]
  · unfold solveNFails
    simp only [solveN]
    rw [if_neg h1, if_pos h2]
    by_cases h3 : |pv| < 1 / 10 ^ 15
    · rw [if_pos h3]
      exact iff_of_true trivial (Or.inl h3)
    · rw [if_neg h3]
      by_cases h4 : fv / pv ≤ 0
      · rw [if_pos h4]
        exact iff_of_true trivial (Or.inr (Or.inl h4))
      · rw [if_neg h4]
        simp only [NOut.isFiniteN, decide_eq_false_iff_not, not_le]
        constructor
        · intro h
          exact Or.inr (Or.inr h)
        · rintro (h | h | h)
          · exact absurd h h3
          · exact absurd h h4
          · exact h
  · simp only [solveN]
    rw [if_neg h1, if_neg h2]

/-- Witness for C8 at concrete inputs in each of the three branches. -/
theorem C8_witness :
    solveN 0 5 2 9 false = some (.num 2) ∧
      solveN (1 / 10) 4 0 8 false = some (.lnRatio 2 (11 / 10)) ∧
      solveN (1 / 10) 100 (-40) 0 false =
        some (.num (solveNNumeric (1 / 10) 100 (-40) 0 false)) := by
  refine ⟨?_, ?_, ?_⟩
  · have h := (C8_solveN_cases 0 5 2 9 false).1 (by norm_num)
    rw [h.1]
    norm_num
  · have h := (C8_solveN_cases (1 / 10) 4 0 8 false).2.1
      (by norm_num [abs_of_pos]) (by norm_num)
    rw [h.1]
    rw [if_neg (by norm_num)]
    norm_num
  · exact (C8_solveN_cases (1 / 10) 100 (-40) 0 false).2.2
      (by norm_num [abs_of_pos]) (by norm_num [abs_of_neg])

/-- Aggregate produced by the amortization engine: accumulated principal,
accumulated interest, running balance. -/
@[ext]
structure AmortResult where
  principal : ℚ
  interest : ℚ
  balance : ℚ
  deriving DecidableEq

/-- The loop body of `calculateAmort` in `src/app.js`, iterated for
periods `1 .. k`: per period either the BGN convention
(`principal = -pmt; balance += principal; interest = balance*i;
balance += interest`) or the END convention (`interest = balance*i;
principal = -pmt - interest; balance += interest + pmt`), accumulating
principal and interest only for periods `≥ p1`. -/
def amortLoop (i pv pmt : ℚ) (isBegin : Bool) (p1 : ℕ) : ℕ → AmortResult
  | 0 => ⟨0, 0, pv⟩
  | k + 1 =>
    let acc := amortLoop i pv pmt isBegin p1 k
    let step : AmortResult :=
      if isBegin then
        let principalPayment := -pmt
        let bal1 := acc.balance + principalPayment
        let interestPayment := bal1 * i
        ⟨principalPayment, interestPayment, bal1 + interestPayment⟩
      else
        let interestPayment := acc.balance * i
        let principalPayment := -pmt - interestPayment
        ⟨principalPayment, interestPayment, acc.balance + interestPayment + pmt⟩
    { principal := acc.principal + (if p1 ≤ k + 1 then step.principal else 0)
      interest := acc.interest + (if p1 ≤ k + 1 then step.interest else 0)
      balance := step.balance }

/-- `calculateAmort` from `src/app.js`, restricted to its numeric core:
walk the balance from period 1 through `p2` starting at `pv`,
accumulating principal/interest over the window `[p1, p2]`.  (The
null/frequency guards of the source wrapper live in the state layer and
are not part of the simulation.) -/
def calculateAmort (i pv pmt : ℚ) (isBegin : Bool) (p1 p2 : ℕ) : AmortResult :=
  amortLoop i pv pmt isBegin p1 p2

/-- Specification-side balance walk: the balance after `k` periods, as
described by the spec's per-period conventions (END:
`balance += balance*i + pmt`; BEGIN: `balance += -pmt` then
`balance += balance*i`). -/
def balWalk (i pv pmt : ℚ) (isBegin : Bool) : ℕ → ℚ
  | 0 => pv
  | k + 1 =>
    if isBegin then (balWalk i pv pmt isBegin k - pmt) * (1 + i)
    else balWalk i pv pmt isBegin k * (1 + i) + pmt

/-- Specification-side interest portion of period `k ≥ 1` (END:
`balance·i` on the entering balance; BEGIN: `balance·i` after the payment
is applied). -/
def periodInterest (i pv pmt : ℚ) (isBegin : Bool) : ℕ → ℚ
  | 0 => 0
  | k + 1 =>
    if isBegin then (balWalk i pv pmt isBegin k - pmt) * i
    else balWalk i pv pmt isBegin k * i

/-- Specification-side principal portion of period `k` (END:
`-pmt - interest`; BEGIN: `-pmt`). -/
def periodPrincipal (i pv pmt : ℚ) (isBegin : Bool) (k : ℕ) : ℚ :=
  if isBegin then -pmt else -pmt - periodInterest i pv pmt isBegin k

lemma amortLoop_balance (i pv pmt : ℚ) (b : Bool) (p1 : ℕ) :
    ∀ k, (amortLoop i pv pmt b p1 k).balance = balWalk i pv pmt b k := by
  intro k
  induction k with
  | zero => rfl
  | succ k ih =>
    simp only [amortLoop, balWalk]
    cases b <;> simp only [if_true, if_false, Bool.false_eq_true] <;>
      rw [ih] <;> ring

lemma amortLoop_principal (i pv pmt : ℚ) (b : Bool) (p1 : ℕ) (h1 : 1 ≤ p1) :
    ∀ k, (amortLoop i pv pmt b p1 k).principal =
      ∑ j in Finset.Icc p1 k, periodPrincipal i pv pmt b j := by
  intro k
  induction k with
  | zero =>
    rw [Finset.Icc_eq_empty (by omega)]
    rfl
  | succ k ih =>
    by_cases hk : p1 ≤ k + 1
    · rw [Finset.sum_Icc_succ_top hk]
      simp only [amortLoop, if_pos hk]
      cases b
      · simp only [Bool.false_eq_true, if_false]
        rw [ih, amortLoop_balance]
        simp [periodPrincipal, periodInterest]
      · simp only [if_true]
        rw [ih]
        simp [periodPrincipal]
    · rw [Finset.Icc_eq_empty (by omega)]
      simp only [amortLoop, if_neg hk]
      rw [ih, Finset.Icc_eq_empty (by omega)]
      simp

lemma amortLoop_interest (i pv pmt : ℚ) (b : Bool) (p1 : ℕ) (h1 : 1 ≤ p1) :
    ∀ k, (amortLoop i pv pmt b p1 k).interest =
      ∑ j in Finset.Icc p1 k, periodInterest i pv pmt b j := by
  intro k
  induction k with
  | zero =>
    rw [Finset.Icc_eq_empty (by omega)]
    rfl
  | succ k ih =>
    by_cases hk : p1 ≤ k + 1
    · rw [Finset.sum_Icc_succ_top hk]
      simp only [amortLoop, if_pos hk]
      cases b
      · simp only [Bool.false_eq_true, if_false]
        rw [ih, amortLoop_balance]
        simp [periodInterest]
      · simp only [if_true]
        rw [ih, amortLoop_balance]
        simp only [periodInterest]
        simp [sub_eq_add_neg]
    · rw [Finset.Icc_eq_empty (by omega)]
      simp only [amortLoop, if_neg hk]
      rw [ih, Finset.Icc_eq_empty (by omega)]
      simp

/-- C4.  For every request with `1 ≤ p1 ≤ p2` the engine walks the
balance sequentially from period 1 through `p2` starting at `pv`
(per-period END/BEGIN updates as described), accumulates principal and
interest exactly over the periods in `[p1, p2]`, and reports the running
balance after period `p2` — an expression independent of `p1`. -/
theorem C4_amort_window (i pv pmt : ℚ) (b : Bool) (p1 p2 : ℕ)
    (h1 : 1 ≤ p1) (h2 : p1 ≤ p2) :
    calculateAmort i pv pmt b p1 p2 =
      ⟨∑ j in Finset.Icc p1 p2, periodPrincipal i pv pmt b j,
        ∑ j in Finset.Icc p1 p2, periodInterest i pv pmt b j,
        balWalk i pv pmt b p2⟩ := by
  ext
  · exact amortLoop_principal i pv pmt b p1 h1 p2
  · exact amortLoop_interest i pv pmt b p1 h1 p2
  · exact amortLoop_balance i pv pmt b p1 p2

/-- Witness for C4 at `i = 1/10`, `pv = 100`, `pmt = -40`, END,
window `[2, 3]`. -/
theorem C4_witness :
    calculateAmort (1 / 10) 100 (-40) false 2 3 =
      ⟨∑ j in Finset.Icc 2 3, periodPrincipal (1 / 10) 100 (-40) false j,
        ∑ j in Finset.Icc 2 3, periodInterest (1 / 10) 100 (-40) false j,
        balWalk (1 / 10) 100 (-40) false 3⟩ :=
  C4_amort_window (1 / 10) 100 (-40) false 2 3 (by norm_num) (by norm_num)

lemma amortLoop_principal_full (i pv pmt : ℚ) :
    ∀ k, (amortLoop i pv pmt false 1 k).principal =
      pv - (amortLoop i pv pmt false 1 k).balance := by
  intro k
  induction k with
  | zero => simp [amortLoop]
  | succ k ih =>
    simp only [amortLoop, if_pos (by omega : 1 ≤ k + 1), Bool.false_eq_true,
      if_false]
    rw [ih]
    ring

lemma balWalk_end_zero (pv pmt : ℚ) :
    ∀ k, balWalk 0 pv pmt false k = pv + k * pmt := by
  intro k
  induction k with
  | zero => simp [balWalk]
  | succ k ih =>
    simp only [balWalk, Bool.false_eq_true, if_false]
    rw [ih]
    push_cast
    ring

lemma balWalk_end_closed (i pv pmt : ℚ) (hi : i ≠ 0) :
    ∀ k, balWalk i pv pmt false k = pv * (1 + i) ^ k + pmt * (((1 + i) ^ k - 1) / i) := by
  intro k
  induction k with
  | zero => simp [balWalk]
  | succ k ih =>
    simp only [balWalk, Bool.false_eq_true, if_false]
    rw [ih]
    field_simp
    ring

/-- C3 counterexample.  With `n = 1`, `i = 1/10`, `pv = 100`, `fv = 0`:
in END mode `solvePMT` gives `pmt = -110` and the full-window simulation
accumulates principal `+100 = +PV`, not `-PV = -100` (the discrepancy is
`200`, not rounding residue); in BEGIN mode `solvePMT` gives
`pmt = -100`, and the simulated final balance is `220`, not the
`fv = 0` used to derive the payment. -/
theorem C3_counterexample :
    solvePMT 1 (1 / 10) 100 0 false = some (-110) ∧
      (calculateAmort (1 / 10) 100 (-110) false 1 1).principal = 100 ∧
      ((100 : ℚ) ≠ -100) ∧
      solvePMT 1 (1 / 10) 100 0 true = some (-100) ∧
      (calculateAmort (1 / 10) 100 (-100) true 1 1).balance = 220 ∧
      ((220 : ℚ) ≠ 0) := by
  refine ⟨?_, ?_, by norm_num, ?_, ?_, by norm_num⟩
  · norm_num [solvePMT, annuityFactor, powq, abs_of_pos]
  · norm_num [calculateAmort, amortLoop]
  · norm_num [solvePMT, annuityFactor, powq, abs_of_pos]
  · norm_num [calculateAmort, amortLoop]

/-- C3 (amended).  For END timing, whole `n ≥ 1`, periodic rate `i` that
is either exactly `0` or at least `1e-10` in magnitude (so the closed
form and the simulation use the same rate branch), if
`pmt = solvePMT(n, i, pv, fv, END)` is finite then the full-window
simulation's principal portions sum to `pv - fv` (exactly: `+PV` when
`FV = 0`, not `-PV`) and the final balance equals the `fv` used to
derive `pmt`.  In BEGIN mode the simulation applies the payment with the
opposite sign of the closed form, so no such conservation law holds
there (see the counterexample). -/
theorem C3_amortization_conservation (n : ℕ) (hn : 1 ≤ n) (i pv fv pmt : ℚ)
    (hi : i = 0 ∨ 1 / 10 ^ 10 ≤ |i|)
    (hp : solvePMT (n : ℚ) i pv fv false = some pmt) :
    (calculateAmort i pv pmt false 1 n).principal = pv - fv ∧
      (calculateAmort i pv pmt false 1 n).balance = fv := by
  simp only [solvePMT, powq_natCast] at hp
  by_cases hlt : |annuityFactor i (n : ℚ) false| < 1 / 10 ^ 15
  · rw [if_pos hlt] at hp
    exact absurd hp (by simp)
  · rw [if_neg hlt] at hp
    have haf0 : annuityFactor i (n : ℚ) false ≠ 0 := by
      intro h0
      rw [h0] at hlt
      norm_num at hlt
    have hpmt : (fv - pv * (1 + i) ^ n) / annuityFactor i (n : ℚ) false = pmt := by
      simpa using hp
    have hbal : (calculateAmort i pv pmt false 1 n).balance = fv := by
      rcases hi with hi | hi
      · subst hi
        have hafn : annuityFactor (0 : ℚ) (n : ℚ) false = (n : ℚ) := by
          simp [annuityFactor]
        rw [hafn] at hpmt haf0
        rw [calculateAmort, amortLoop_balance, balWalk_end_zero, ← hpmt]
        field_simp
      · have hi0 : i ≠ 0 := by
          intro h0
          rw [h0] at hi
          norm_num at hi
        have hafn : annuityFactor i (n : ℚ) false = ((1 + i) ^ n - 1) / i := by
          simp only [annuityFactor, not_lt.mpr hi, if_false, Bool.false_eq_true,
            powq_natCast]
        rw [hafn] at hpmt haf0
        have key : pmt * (((1 + i) ^ n - 1) / i) = fv - pv * (1 + i) ^ n := by
          rw [← hpmt, div_mul_cancel₀ _ haf0]
        rw [calculateAmort, amortLoop_balance, balWalk_end_closed i pv pmt hi0, key]
        ring
    refine ⟨?_, hbal⟩
    rw [calculateAmort, amortLoop_principal_full]
    rw [calculateAmort] at hbal
    rw [hbal]

/-- Witness for C3 (amended) at `n = 2`, `i = 1/10`, `pv = 100`,
`fv = 0`, where `solvePMT` yields `pmt = -1210/21`. -/
theorem C3_witness :
    solvePMT ((2 : ℕ) : ℚ) (1 / 10) 100 0 false = some (-1210 / 21) ∧
      ((1 / 10 : ℚ) = 0 ∨ 1 / 10 ^ 10 ≤ |(1 / 10 : ℚ)|) ∧
      (calculateAmort (1 / 10) 100 (-1210 / 21) false 1 2).principal = 100 - 0 ∧
      (calculateAmort (1 / 10) 100 (-1210 / 21) false 1 2).balance = 0 := by
  have hp : solvePMT ((2 : ℕ) : ℚ) (1 / 10) 100 0 false = some (-1210 / 21) := by
    norm_num [solvePMT, annuityFactor, powq, abs_of_pos]
  have h := C3_amortization_conservation 2 (by norm_num) (1 / 10) 100 0 (-1210 / 21)
    (Or.inr (by norm_num [abs_of_pos])) hp
  exact ⟨hp, Or.inr (by norm_num [abs_of_pos]), h.1, h.2⟩

/-- The residual `f(i) = fv - pv*(1+i)^n - pmt*annuityFactor(i,n,isBegin)`
of `solveIY` in `src/app.js`. -/
def iyF (n pv pmt fv : ℚ) (isBegin : Bool) (i : ℚ) : ℚ :=
  fv - pv * powq (1 + i) n - pmt * annuityFactor i n isBegin

/-- The analytic derivative `df` of `solveIY` in `src/app.js`, with the
special-cased closed form `-pv*n - pmt*n*(n+1)/2` at `|i| < 1e-10`. -/
def iyDF (n pv pmt : ℚ) (isBegin : Bool) (i : ℚ) : ℚ :=
  if |i| < 1 / 10 ^ 10 then -pv * n - pmt * n * (n + 1) / 2
  else
    let onePlusI := 1 + i
    let onePlusIN := powq onePlusI n
    let dCompound := n * powq onePlusI (n - 1)
    let af := (onePlusIN - 1) / i
    let dAf := (n * powq onePlusI (n - 1) * i - (onePlusIN - 1)) / (i * i)
    let dAfBgn := if isBegin then dAf * onePlusI + af else dAf
    let res := -pv * dCompound - pmt * dAfBgn
    res

/-- State of the Newton-Raphson phase of `solveIY`/`calculateIRR`:
current iterate, best iterate seen, best `|residual|` seen, and whether
the loop has broken out. -/
structure NewtonSt where
  i : ℚ
  bestI : ℚ
  bestF : ℚ
  done : Bool
  deriving DecidableEq

/-- Initial Newton state of `solveIY`: guess `i = 0.05`, best residual
`|f(0.05)|`. -/
def newtonInit (f : ℚ → ℚ) : NewtonSt :=
  ⟨1 / 20, 1 / 20, |f (1 / 20)|, false⟩

/-- One iteration of the Newton loop of `solveIY` in `src/app.js`:
break on `|f| < 1e-10`; track the best iterate; break on
`|df| < 1e-15`; take the Newton step, replacing a step `≤ -0.99` by
`i/2` and then a step `> 10` by `(i+10)/2`; break (keeping the new
iterate as best) when the step moves less than `1e-12`. -/
def newtonStep (f df : ℚ → ℚ) (s : NewtonSt) : NewtonSt :=
  let fVal := f s.i
  if |fVal| < 1 / 10 ^ 10 then { s with bestI := s.i, done := true }
  else
    let s1 := if |fVal| < s.bestF then { s with bestF := |fVal|, bestI := s.i } else s
    let dfVal := df s.i
    if |dfVal| < 1 / 10 ^ 15 then { s1 with done := true }
    else
      let newI0 := s1.i - fVal / dfVal
      let newI1 := if newI0 ≤ -(99 / 100) then s1.i / 2 else newI0
      let newI2 := if newI1 > 10 then (s1.i + 10) / 2 else newI1
      if |newI2 - s1.i| < 1 / 10 ^ 12 then { s1 with bestI := newI2, done := true }
      else { s1 with i := newI2 }

/-- The Newton loop, fuel-bounded; a broken state is returned as is. -/
def newtonLoop (f df : ℚ → ℚ) : ℕ → NewtonSt → NewtonSt
  | 0, s => s
  | k + 1, s => if s.done then s else newtonLoop f df k (newtonStep f df s)

/-- Best iterate after the (at most 50 iterations of the) Newton phase of
`solveIY`. -/
def newtonResult (f df : ℚ → ℚ) : ℚ :=
  (newtonLoop f df 50 (newtonInit f)).bestI

/-- The bracket-adjustment probe of `bisectionSolveI` in `src/app.js`:
the first test point strictly inside `(lo, hi)` whose residual has the
opposite sign of `f(lo)` (resp. `f(hi)`) replaces `hi` (resp. `lo`). -/
def probeAdjust (f : ℚ → ℚ) (lo hi fLo fHi : ℚ) : List ℚ → ℚ × ℚ × ℚ × ℚ
  | [] => (lo, hi, fLo, fHi)
  | t :: ts =>
    if lo < t ∧ t < hi ∧ f t * fLo < 0 then (lo, t, fLo, f t)
    else if lo < t ∧ t < hi ∧ f t * fHi < 0 then (t, hi, f t, fHi)
    else probeAdjust f lo hi fLo fHi ts

/-- The bisection loop shared by `bisectionSolveI` (it carries `fLo`
along; returns the midpoint early when `|f(mid)| < 1e-10`). -/
def bisectLoop (f : ℚ → ℚ) : ℕ → ℚ → ℚ → ℚ → ℚ → ℚ
  | 0, lo, hi, _, _ => (lo + hi) / 2
  | k + 1, lo, hi, fLo, fHi =>
    let mid := (lo + hi) / 2
    let fMid := f mid
    if |fMid| < 1 / 10 ^ 10 then mid
    else if fLo * fMid < 0 then bisectLoop f k lo mid fLo fMid
    else bisectLoop f k mid hi fMid fHi

/-- `bisectionSolveI(f, lo, hi, maxIter)` from `src/app.js`: when the
initial bracket has no sign change, probe the fixed test points
`-0.5, 0, 0.01, 0.1, 0.5, 1, 1.5`; then bisect at most `maxIter`
times. -/
def bisectionSolveI (f : ℚ → ℚ) (lo hi : ℚ) (maxIter : ℕ) : ℚ :=
  let fLo := f lo
  let fHi := f hi
  let q :=
    if fLo * fHi > 0 then
      probeAdjust f lo hi fLo fHi [-(1 / 2), 0, 1 / 100, 1 / 10, 1 / 2, 1, 3 / 2]
    else (lo, hi, fLo, fHi)
  bisectLoop f maxIter q.1 q.2.1 q.2.2.1 q.2.2.2

/-- The inverse rate conversion at the end of `solveIY`:
`bestI*py*100` when `cy === py`, else
`cy*((1+bestI)^(py/cy) - 1)*100`. -/
def nominalOf (bestI cy py : ℚ) : ℚ :=
  (if cy = py then bestI * py else cy * (powq (1 + bestI) (py / cy) - 1)) * 100

/-- `solveIY(n, pv, pmt, fv, isBegin, cy, py)` from `src/app.js`:
Newton-Raphson phase, bisection fallback over `[-0.99, 2]` exactly when
the best Newton residual still exceeds `1e-6`, then conversion of the
periodic rate to a nominal annual percentage. -/
def solveIY (n pv pmt fv : ℚ) (isBegin : Bool) (cy py : ℚ) : ℚ :=
  let f := iyF n pv pmt fv isBegin
  let df := iyDF n pv pmt isBegin
  let nb := newtonResult f df
  let bestI := if |f nb| > 1 / 10 ^ 6 then bisectionSolveI f (-(99 / 100)) 2 100 else nb
  nominalOf bestI cy py

lemma newtonStep_range (f df : ℚ → ℚ) (s : NewtonSt)
    (h : -(99 / 100) < s.i ∧ s.i ≤ 10) :
    -(99 / 100) < (newtonStep f df s).i ∧ (newtonStep f df s).i ≤ 10 := by
  obtain ⟨hlo, hhi⟩ := h
  simp only [newtonStep]
  split_ifs <;> dsimp only <;> constructor <;> linarith

lemma newtonLoop_range (f df : ℚ → ℚ) (k : ℕ) (s : NewtonSt)
    (h : -(99 / 100) < s.i ∧ s.i ≤ 10) :
    -(99 / 100) < (newtonLoop f df k s).i ∧ (newtonLoop f df k s).i ≤ 10 := by
  induction k generalizing s with
  | zero => exact h
  | succ k ih =>
    unfold newtonLoop
    split_ifs
    · exact h
    · exact ih (newtonStep f df s) (newtonStep_range f df s h)

/-- C5.  Structure of the interest-rate search: `solveIY` runs the
Newton phase (initial guess `0.05`, at most 50 iterations — the fuel of
`newtonResult`), falls back to `bisectionSolveI` over `[-0.99, 2]` with
100 bisections exactly when the best Newton iterate's residual exceeds
`1e-6` in magnitude, and converts the chosen periodic rate to a nominal
annual percentage; moreover every iterate of the Newton phase stays in
the interval `(-0.99, 10]`. -/
theorem C5_solveIY_strategy (n pv pmt fv : ℚ) (b : Bool) (cy py : ℚ) :
    (solveIY n pv pmt fv b cy py =
      nominalOf
        (if |iyF n pv pmt fv b (newtonResult (iyF n pv pmt fv b) (iyDF n pv pmt b))| >
            1 / 10 ^ 6
         then bisectionSolveI (iyF n pv pmt fv b) (-(99 / 100)) 2 100
         else newtonResult (iyF n pv pmt fv b) (iyDF n pv pmt b)) cy py) ∧
    (newtonInit (iyF n pv pmt fv b)).i = 1 / 20 ∧
    (∀ k,
      -(99 / 100) <
          (newtonLoop (iyF n pv pmt fv b) (iyDF n pv pmt b) k
            (newtonInit (iyF n pv pmt fv b))).i ∧
        (newtonLoop (iyF n pv pmt fv b) (iyDF n pv pmt b) k
            (newtonInit (iyF n pv pmt fv b))).i ≤ 10) ∧
    (∀ r, nominalOf r cy py =
      (if cy = py then r * py else cy * (powq (1 + r) (py / cy) - 1)) * 100) := by
  refine ⟨rfl, rfl, fun k => ?_, fun r => rfl⟩
  refine newtonLoop_range _ _ k _ ⟨?_, ?_⟩ <;> simp [newtonInit] <;> norm_num

/-- Accumulator of the NPV sum `Σ_t cf[t] / (1+r)^t`, starting at index
`t` (the exponent is a natural number, so the power is exact; at
`1 + r = 0` and `t ≥ 1` the source produces `±Infinity` where Lean's
division by zero gives `0` — no theorem relies on that corner). -/
def npvAux (r : ℚ) : List ℚ → ℕ → ℚ
  | [], _ => 0
  | c :: cs, t => c / (1 + r) ^ t + npvAux r cs (t + 1)

/-- The NPV loop of `calculateNPV`/`calculateIRR` in `src/app.js` at a
periodic rate `r`. -/
def npvAt (cfs : List ℚ) (r : ℚ) : ℚ :=
  npvAux r cfs 0

/-- Accumulator of the NPV derivative `Σ_t -t·cf[t]/(1+r)^(t+1)`.  The
source loop starts at `t = 1`; the `t = 0` summand here is `0` (it
carries the factor `t`), so the sums agree. -/
def irrDerivAux (r : ℚ) : List ℚ → ℕ → ℚ
  | [], _ => 0
  | c :: cs, t => -(t * c / (1 + r) ^ (t + 1)) + irrDerivAux r cs (t + 1)

/-- The `npvDerivative` of `calculateIRR` in `src/app.js`. -/
def irrDeriv (cfs : List ℚ) (r : ℚ) : ℚ :=
  irrDerivAux r cfs 0

/-- Initial Newton state of `calculateIRR`: guess `r = 0.1`. -/
def irrInit (f : ℚ → ℚ) : NewtonSt :=
  ⟨1 / 10, 1 / 10, |f (1 / 10)|, false⟩

/-- One iteration of the Newton loop of `calculateIRR` in `src/app.js`.
Like `newtonStep` but with the IRR clamps (`(r-0.99)/2` below,
`(r+10)/2` above) and step-convergence tolerance `1e-10`. -/
def irrStep (f df : ℚ → ℚ) (s : NewtonSt) : NewtonSt :=
  let npv := f s.i
  if |npv| < 1 / 10 ^ 10 then { s with bestI := s.i, done := true }
  else
    let s1 := if |npv| < s.bestF then { s with bestF := |npv|, bestI := s.i } else s
    let deriv := df s.i
    if |deriv| < 1 / 10 ^ 15 then { s1 with done := true }
    else
      let newR0 := s1.i - npv / deriv
      let newR1 := if newR0 ≤ -(99 / 100) then (s1.i - 99 / 100) / 2 else newR0
      let newR2 := if newR1 > 10 then (s1.i + 10) / 2 else newR1
      if |newR2 - s1.i| < 1 / 10 ^ 10 then { s1 with bestI := newR2, done := true }
      else { s1 with i := newR2 }

/-- The IRR Newton loop, fuel-bounded (the source runs 100 iterations). -/
def irrLoop (f df : ℚ → ℚ) : ℕ → NewtonSt → NewtonSt
  | 0, s => s
  | k + 1, s => if s.done then s else irrLoop f df k (irrStep f df s)

lemma irrLoop_succ (f df : ℚ → ℚ) (k : ℕ) (s : NewtonSt) :
    irrLoop f df (k + 1) s = if s.done then s else irrLoop f df k (irrStep f df s) :=
  rfl

lemma irrLoop_of_done (f df : ℚ → ℚ) (k : ℕ) (s : NewtonSt) (h : s.done = true) :
    irrLoop f df k s = s := by
  cases k <;> simp [irrLoop, h]

/-- The bracket probe of `bisectionIRR` in `src/app.js`: unlike
`bisectionSolveI` it has no `lo < t < hi` guard and probes only
`-0.5, 0, 0.01, 0.1, 0.5, 1`. -/
def irrProbe (f : ℚ → ℚ) (lo hi fLo fHi : ℚ) : List ℚ → ℚ × ℚ × ℚ × ℚ
  | [] => (lo, hi, fLo, fHi)
  | t :: ts =>
    if f t * fLo < 0 then (lo, t, fLo, f t)
    else if f t * fHi < 0 then (t, hi, f t, fHi)
    else irrProbe f lo hi fLo fHi ts

/-- `bisectionIRR(f, lo, hi, maxIter)` from `src/app.js` (the bisection
body is identical to `bisectionSolveI`'s, hence the shared
`bisectLoop`). -/
def bisectionIRR (f : ℚ → ℚ) (lo hi : ℚ) (maxIter : ℕ) : ℚ :=
  let fLo := f lo
  let fHi := f hi
  let q :=
    if fLo * fHi > 0 then irrProbe f lo hi fLo fHi [-(1 / 2), 0, 1 / 100, 1 / 10, 1 / 2, 1]
    else (lo, hi, fLo, fHi)
  bisectLoop f maxIter q.1 q.2.1 q.2.2.1 q.2.2.2

/-- The periodic rate produced by the IRR search of `calculateIRR` in
`src/app.js`: 100 Newton iterations from `0.1`, bisection over
`[-0.99, 2]` when the best residual still exceeds `1e-6`. -/
def irrPeriodic (cfs : List ℚ) : ℚ :=
  let f := npvAt cfs
  let df := irrDeriv cfs
  let s := irrLoop f df 100 (irrInit f)
  if |f s.bestI| > 1 / 10 ^ 6 then bisectionIRR f (-(99 / 100)) 2 100 else s.bestI

/-- `calculateIRR(cashFlows, py)` from `src/app.js`, restricted to its
numeric core: fail on fewer than two cash flows, unset payment
frequency, or missing sign change; otherwise annualize the periodic IRR
as `r * py * 100`. -/
def calculateIRR (cfs : List ℚ) (py : ℚ) : Option ℚ :=
  if cfs.length < 2 then none
  else if py ≤ 0 then none
  else if (cfs.any fun c => decide (0 < c)) && (cfs.any fun c => decide (c < 0)) then
    some (irrPeriodic cfs * py * 100)
  else none

lemma npvAt_cex_le (r : ℚ) : npvAt [-1, 3, -3] r ≤ -(1 / 4) := by
  by_cases hy : 1 + r = 0
  · simp [npvAt, npvAux, hy]
    norm_num
  · have hy2 : (0 : ℚ) < (1 + r) ^ 2 := by positivity
    have hexp : npvAt [-1, 3, -3] r =
        (-(1 + r) ^ 2 + 3 * (1 + r) - 3) / (1 + r) ^ 2 := by
      simp only [npvAt, npvAux]
      field_simp
      ring
    rw [hexp, div_le_iff₀ hy2]
    nlinarith [sq_nonneg (1 + r - 2)]

/-- C6 counterexample.  The series `[-1, 3, -3]` has two sign changes
and length ≥ 2, so the IRR computation runs (with `py = 1` it returns
the annualized `irrPeriodic·1·100`), but its NPV is at most `-1/4` at
every rate, so the NPV at the returned rate (de-annualized as
`rate/100/py`) cannot be within `1e-6` of zero — no rate at all could
satisfy the claimed bound. -/
theorem C6_counterexample :
    2 ≤ ([-1, 3, -3] : List ℚ).length ∧
      (([-1, 3, -3] : List ℚ).any fun c => decide (0 < c)) = true ∧
      (([-1, 3, -3] : List ℚ).any fun c => decide (c < 0)) = true ∧
      calculateIRR [-1, 3, -3] 1 = some (irrPeriodic [-1, 3, -3] * 1 * 100) ∧
      ¬ |npvAt [-1, 3, -3] (irrPeriodic [-1, 3, -3] * 1 * 100 / 100 / 1)| ≤
          1 / 10 ^ 6 := by
  have hpos : (([-1, 3, -3] : List ℚ).any fun c => decide (0 < c)) = true := by
    simp only [List.any_cons, List.any_nil, Bool.or_eq_true, decide_eq_true_eq]
    norm_num
  have hneg : (([-1, 3, -3] : List ℚ).any fun c => decide (c < 0)) = true := by
    simp only [List.any_cons, List.any_nil, Bool.or_eq_true, decide_eq_true_eq]
    norm_num
  refine ⟨by norm_num, hpos, hneg, ?_, ?_⟩
  · simp only [calculateIRR]
    rw [if_neg (by norm_num), if_neg (by norm_num), if_pos (by rw [hpos, hneg]; rfl)]
  · intro habs
    have hb := npvAt_cex_le (irrPeriodic [-1, 3, -3] * 1 * 100 / 100 / 1)
    have := (abs_le.mp habs).1
    linarith

/-- C6 (amended).  For the mixed-sign series `[-1, 1]` (with `py = 1`)
the Newton phase converges, and the NPV at the returned rate is within
`1e-6` of zero; but this does not extend to every mixed-sign series
(see the counterexample). -/
theorem C6_npv_at_irr :
    2 ≤ ([-1, 1] : List ℚ).length ∧
      (([-1, 1] : List ℚ).any fun c => decide (0 < c)) = true ∧
      (([-1, 1] : List ℚ).any fun c => decide (c < 0)) = true ∧
      |npvAt [-1, 1] (irrPeriodic [-1, 1] * 1 * 100 / 100 / 1)| ≤ 1 / 10 ^ 6 := by
  have h0 : irrInit (npvAt [-1, 1]) = ⟨1 / 10, 1 / 10, 1 / 11, false⟩ := by
    norm_num [irrInit, npvAt, npvAux, abs_of_neg]
  have h1 : irrStep (npvAt [-1, 1]) (irrDeriv [-1, 1]) ⟨1 / 10, 1 / 10, 1 / 11, false⟩ =
      ⟨-(1 / 100), 1 / 10, 1 / 11, false⟩ := by
    norm_num [irrStep, npvAt, npvAux, irrDeriv, irrDerivAux, abs_of_pos, abs_of_neg]
  have h2 : irrStep (npvAt [-1, 1]) (irrDeriv [-1, 1])
        ⟨-(1 / 100), 1 / 10, 1 / 11, false⟩ =
      ⟨-(1 / 10000), -(1 / 100), 1 / 99, false⟩ := by
    norm_num [irrStep, npvAt, npvAux, irrDeriv, irrDerivAux, abs_of_pos, abs_of_neg]
  have h3 : irrStep (npvAt [-1, 1]) (irrDeriv [-1, 1])
        ⟨-(1 / 10000), -(1 / 100), 1 / 99, false⟩ =
      ⟨-(1 / 10 ^ 8), -(1 / 10000), 1 / 9999, false⟩ := by
    norm_num [irrStep, npvAt, npvAux, irrDeriv, irrDerivAux, abs_of_pos, abs_of_neg]
  have h4 : irrStep (npvAt [-1, 1]) (irrDeriv [-1, 1])
        ⟨-(1 / 10 ^ 8), -(1 / 10000), 1 / 9999, false⟩ =
      ⟨-(1 / 10 ^ 16), -(1 / 10 ^ 8), 1 / 99999999, false⟩ := by
    norm_num [irrStep, npvAt, npvAux, irrDeriv, irrDerivAux, abs_of_pos, abs_of_neg]
  have h5 : irrStep (npvAt [-1, 1]) (irrDeriv [-1, 1])
        ⟨-(1 / 10 ^ 16), -(1 / 10 ^ 8), 1 / 99999999, false⟩ =
      ⟨-(1 / 10 ^ 16), -(1 / 10 ^ 16), 1 / 99999999, true⟩ := by
    norm_num [irrStep, npvAt, npvAux, irrDeriv, irrDerivAux, abs_of_pos, abs_of_neg]
  have hloop : irrLoop (npvAt [-1, 1]) (irrDeriv [-1, 1]) 100 (irrInit (npvAt [-1, 1])) =
      ⟨-(1 / 10 ^ 16), -(1 / 10 ^ 16), 1 / 99999999, true⟩ := by
    rw [h0, show (100 : ℕ) = 99 + 1 from rfl, irrLoop_succ, if_neg (by simp), h1,
      show (99 : ℕ) = 98 + 1 from rfl, irrLoop_succ, if_neg (by simp), h2,
      show (98 : ℕ) = 97 + 1 from rfl, irrLoop_succ, if_neg (by simp), h3,
      show (97 : ℕ) = 96 + 1 from rfl, irrLoop_succ, if_neg (by simp), h4,
      show (96 : ℕ) = 95 + 1 from rfl, irrLoop_succ, if_neg (by simp), h5,
      irrLoop_of_done _ _ _ _ rfl]
  have hirr : irrPeriodic [-1, 1] = -(1 / 10 ^ 16) := by
    simp only [irrPeriodic]
    rw [hloop]
    rw [if_neg (by norm_num [npvAt, npvAux, abs_of_pos])]
  constructor
  · norm_num
  constructor
  · simp only [List.any_cons, List.any_nil, Bool.or_eq_true, decide_eq_true_eq]
    norm_num
  constructor
  · simp only [List.any_cons, List.any_nil, Bool.or_eq_true, decide_eq_true_eq]
    norm_num
  · rw [hirr]
    norm_num [npvAt, npvAux, abs_of_pos, abs_of_nonneg]

/-- The value `computeVariable`'s IY case actually computes: the body of
`solveIY` re-run under the call `solveIY(n, pv, pmt, fv, cy, py, isBegin)`
of `src/app.js` (line 798), whose arguments are shifted against the
signature `solveIY(n, pv, pmt, fv, isBegin, cy, py)`.  Under JavaScript
semantics the body's `isBegin` is the number `cy` (truthy iff `cy ≠ 0`),
the body's `cy === py` compares the number `py` with the boolean
`isBegin` and is always `false` (strict equality across types), and the
body's exponent `py/cy` becomes `isBegin/py` with the boolean coerced to
`1`/`0`. -/
def solveIYSwapped (n pv pmt fv cy py : ℚ) (isBegin : Bool) : ℚ :=
  let bodyBegin : Bool := decide (cy ≠ 0)
  let f := iyF n pv pmt fv bodyBegin
  let df := iyDF n pv pmt bodyBegin
  let nb := newtonResult f df
  let bestI := if |f nb| > 1 / 10 ^ 6 then bisectionSolveI f (-(99 / 100)) 2 100 else nb
  py * (powq (1 + bestI) ((if isBegin then 1 else 0) / py) - 1) * 100

/-- The five TVM registers. -/
inductive TVMVar where
  | N
  | IY
  | PV
  | PMT
  | FV
  deriving DecidableEq

/-- The slice of the calculator's mutable `state` that the solve paths
read or write: the five registers (`null` = unset), the frequencies, the
timing flag, the last computed variable and the CPT-armed flag. -/
structure CalcState where
  N : Option ℚ
  IY : Option ℚ
  PV : Option ℚ
  PMT : Option ℚ
  FV : Option ℚ
  cy : ℚ
  py : ℚ
  BGN : Bool
  lastComputedVar : Option TVMVar
  computeArmed : Bool
  deriving DecidableEq

def getReg (s : CalcState) : TVMVar → Option ℚ
  | .N => s.N
  | .IY => s.IY
  | .PV => s.PV
  | .PMT => s.PMT
  | .FV => s.FV

def setReg (s : CalcState) : TVMVar → Option ℚ → CalcState
  | .N, v => { s with N := v }
  | .IY, v => { s with IY := v }
  | .PV, v => { s with PV := v }
  | .PMT, v => { s with PMT := v }
  | .FV, v => { s with FV := v }

/-- `tvmVars.filter(v => state[v] === null)` from `compute` in
`src/app.js`. -/
def blankVars (s : CalcState) : List TVMVar :=
  [TVMVar.N, TVMVar.IY, TVMVar.PV, TVMVar.PMT, TVMVar.FV].filter
    fun v => (getReg s v).isNone

/-- The `switch (solveFor)` of `compute` in `src/app.js`.  A `null`
register read into arithmetic is JavaScript's `0`, hence `getD 0`;
`none` is a non-finite result (the `!isFinite(result) || isNaN(result)`
check). -/
def computeSwitch (v : TVMVar) (s : CalcState) : Option ℚ :=
  let n := s.N.getD 0
  let iy := s.IY.getD 0
  let pv := s.PV.getD 0
  let pmt := s.PMT.getD 0
  let fv := s.FV.getD 0
  match v with
  | .FV => some (solveFV n (getPeriodicRate iy s.cy s.py) pv pmt s.BGN)
  | .PV => solvePV n (getPeriodicRate iy s.cy s.py) pmt fv s.BGN
  | .PMT => solvePMT n (getPeriodicRate iy s.cy s.py) pv fv s.BGN
  | .N =>
    match solveN (getPeriodicRate iy s.cy s.py) pv pmt fv s.BGN with
    | none => none
    | some o => if o.isFiniteN then some o.toVal else none
  | .IY => some (solveIY n pv pmt fv s.BGN s.cy s.py)

/-- The `switch (varName)` of `computeVariable` in `src/app.js` — same
as `computeSwitch` except that its IY case calls `solveIY` with the
shifted argument order (`cy, py` before `isBegin`, line 798). -/
def computeVarSwitch (v : TVMVar) (s : CalcState) : Option ℚ :=
  let n := s.N.getD 0
  let iy := s.IY.getD 0
  let pv := s.PV.getD 0
  let pmt := s.PMT.getD 0
  let fv := s.FV.getD 0
  match v with
  | .FV => some (solveFV n (getPeriodicRate iy s.cy s.py) pv pmt s.BGN)
  | .PV => solvePV n (getPeriodicRate iy s.cy s.py) pmt fv s.BGN
  | .PMT => solvePMT n (getPeriodicRate iy s.cy s.py) pv fv s.BGN
  | .N =>
    match solveN (getPeriodicRate iy s.cy s.py) pv pmt fv s.BGN with
    | none => none
    | some o => if o.isFiniteN then some o.toVal else none
  | .IY => some (solveIYSwapped n pv pmt fv s.cy s.py s.BGN)

/-- Messages/outcomes of a solve attempt (display strings abstracted). -/
inductive Outcome where
  | errFreq
  | armed
  | errMultiBlank
  | errNoSolution
  | success
  deriving DecidableEq

/-- Result of a solve attempt: the new state and the outcome. -/
structure StepResult where
  state : CalcState
  outcome : Outcome
  deriving DecidableEq

/-- `computeVariable(varName)` from `src/app.js`: disarm CPT, check the
frequencies, temporarily null the target register, run the switch, and
on any failure restore the original value; on success store the result
and record the variable as last computed. -/
def computeVariable (v : TVMVar) (s0 : CalcState) : StepResult :=
  let s := { s0 with computeArmed := false }
  if s.py ≤ 0 ∨ s.cy ≤ 0 then ⟨s, .errFreq⟩
  else
    match computeVarSwitch v (setReg s v none) with
    | none => ⟨s, .errNoSolution⟩
    | some r => ⟨{ setReg (setReg s v none) v (some r) with lastComputedVar := some v },
        .success⟩

/-- The one-blank-variable solve of `compute` in `src/app.js` (the body
after `solveFor` has been determined). -/
def solveBlank (v : TVMVar) (s : CalcState) : StepResult :=
  match computeSwitch v s with
  | none => ⟨s, .errNoSolution⟩
  | some r => ⟨{ setReg s v (some r) with lastComputedVar := some v }, .success⟩

/-- `compute()` from `src/app.js`: frequency check; with no blank
register either recompute the last computed variable or arm CPT mode;
with more than one blank register report an error; with exactly one,
solve for it. -/
def compute (s : CalcState) : StepResult :=
  if s.py ≤ 0 ∨ s.cy ≤ 0 then ⟨s, .errFreq⟩
  else
    match blankVars s with
    | [] =>
      match s.lastComputedVar with
      | some v => computeVariable v s
      | none => ⟨{ s with computeArmed := true }, .armed⟩
    | [v] => solveBlank v s
    | _ => ⟨s, .errMultiBlank⟩

/-- The tuple of the five TVM registers of a state. -/
def regs (s : CalcState) : Option ℚ × Option ℚ × Option ℚ × Option ℚ × Option ℚ :=
  (s.N, s.IY, s.PV, s.PMT, s.FV)

lemma newtonLoop_succ (f df : ℚ → ℚ) (k : ℕ) (s : NewtonSt) :
    newtonLoop f df (k + 1) s =
      if s.done then s else newtonLoop f df k (newtonStep f df s) :=
  rfl

lemma newtonLoop_of_done (f df : ℚ → ℚ) (k : ℕ) (s : NewtonSt) (h : s.done = true) :
    newtonLoop f df k s = s := by
  cases k <;> simp [newtonLoop, h]

lemma c9_init (b : Bool) :
    newtonInit (iyF 1 100 0 110 b) = ⟨1 / 20, 1 / 20, 5, false⟩ := by
  cases b <;> norm_num [newtonInit, iyF, annuityFactor, powq, abs_of_pos]

lemma c9_step1 (b : Bool) :
    newtonStep (iyF 1 100 0 110 b) (iyDF 1 100 0 b) ⟨1 / 20, 1 / 20, 5, false⟩ =
      ⟨1 / 10, 1 / 20, 5, false⟩ := by
  cases b <;> norm_num [newtonStep, iyF, iyDF, annuityFactor, powq, abs_of_pos]

lemma c9_step2 (b : Bool) :
    newtonStep (iyF 1 100 0 110 b) (iyDF 1 100 0 b) ⟨1 / 10, 1 / 20, 5, false⟩ =
      ⟨1 / 10, 1 / 10, 5, true⟩ := by
  cases b <;> norm_num [newtonStep, iyF, iyDF, annuityFactor, powq, abs_of_pos]

lemma c9_newton (b : Bool) :
    newtonResult (iyF 1 100 0 110 b) (iyDF 1 100 0 b) = 1 / 10 := by
  unfold newtonResult
  rw [c9_init, show (50 : ℕ) = 49 + 1 from rfl, newtonLoop_succ, if_neg (by simp),
    c9_step1, show (49 : ℕ) = 48 + 1 from rfl, newtonLoop_succ, if_neg (by simp),
    c9_step2, newtonLoop_of_done _ _ _ _ rfl]

lemma c9_solveIY : solveIY 1 100 0 110 false 12 12 = 120 := by
  simp only [solveIY]
  rw [c9_newton]
  rw [if_neg (by norm_num [iyF, annuityFactor, powq])]
  norm_num [nominalOf]

lemma c9_solveIYSwapped : solveIYSwapped 1 100 0 110 12 12 false = 0 := by
  simp only [solveIYSwapped]
  rw [show (decide ((12 : ℚ) ≠ 0)) = true by simp]
  rw [c9_newton]
  rw [if_neg (by norm_num [iyF, annuityFactor, powq])]
  norm_num [powq]

lemma compute_of_bad_freq (s : CalcState) (h : s.py ≤ 0 ∨ s.cy ≤ 0) :
    compute s = ⟨s, .errFreq⟩ := by
  simp only [compute]
  rw [if_pos h]

lemma compute_of_nil_none (s : CalcState) (hf : ¬ (s.py ≤ 0 ∨ s.cy ≤ 0))
    (hb : blankVars s = []) (hl : s.lastComputedVar = none) :
    compute s = ⟨{ s with computeArmed := true }, .armed⟩ := by
  simp only [compute, hb, hl]
  rw [if_neg hf]

lemma compute_of_nil_some (s : CalcState) (v : TVMVar)
    (hf : ¬ (s.py ≤ 0 ∨ s.cy ≤ 0)) (hb : blankVars s = [])
    (hl : s.lastComputedVar = some v) :
    compute s = computeVariable v s := by
  simp only [compute, hb, hl]
  rw [if_neg hf]

lemma compute_of_single (s : CalcState) (v : TVMVar)
    (hf : ¬ (s.py ≤ 0 ∨ s.cy ≤ 0)) (hb : blankVars s = [v]) :
    compute s = solveBlank v s := by
  simp only [compute, hb]
  rw [if_neg hf]

lemma compute_of_multi (s : CalcState) (v1 v2 : TVMVar) (l : List TVMVar)
    (hf : ¬ (s.py ≤ 0 ∨ s.cy ≤ 0)) (hb : blankVars s = v1 :: v2 :: l) :
    compute s = ⟨s, .errMultiBlank⟩ := by
  simp only [compute, hb]
  rw [if_neg hf]

lemma computeVariable_of_some (v : TVMVar) (s : CalcState) (r : ℚ)
    (hf : ¬ (s.py ≤ 0 ∨ s.cy ≤ 0))
    (hm : computeVarSwitch v (setReg { s with computeArmed := false } v none) = some r) :
    computeVariable v s =
      ⟨{ setReg (setReg { s with computeArmed := false } v none) v (some r) with
          lastComputedVar := some v }, .success⟩ := by
  simp only [computeVariable, hm]
  rw [if_neg hf]

/-- A state with exactly I/Y unset and valid frequencies
(`N = 1`, `PV = 100`, `PMT = 0`, `FV = 110`, `C/Y = P/Y = 12`, END). -/
def stateIYBlank : CalcState :=
  ⟨some 1, none, some 100, some 0, some 110, 12, 12, false, none, false⟩

/-- C9.  The `compute` path calls `solveIY(n, pv, pmt, fv, isBegin, cy, py)`
(matching the signature) while the `computeVariable` path calls
`solveIY(n, pv, pmt, fv, cy, py, isBegin)`; on the state with
`N = 1`, `PV = 100`, `PMT = 0`, `FV = 110`, `C/Y = P/Y = 12`, END the
former stores `I/Y = 120` and the latter stores `I/Y = 0`, so the two
paths are not equivalent. -/
theorem C9_iy_argument_order :
    (compute stateIYBlank).state.IY = some 120 ∧
      (computeVariable TVMVar.IY stateIYBlank).state.IY = some 0 ∧
      (compute stateIYBlank).state.IY ≠
        (computeVariable TVMVar.IY stateIYBlank).state.IY := by
  have hf : ¬ (stateIYBlank.py ≤ 0 ∨ stateIYBlank.cy ≤ 0) := by
    norm_num [stateIYBlank]
  have hb : blankVars stateIYBlank = [TVMVar.IY] := rfl
  have hcs : computeSwitch TVMVar.IY stateIYBlank = some 120 := by
    have hexp : computeSwitch TVMVar.IY stateIYBlank =
        some (solveIY 1 100 0 110 false 12 12) := by
      dsimp only [computeSwitch, stateIYBlank, Option.getD_some]
    rw [hexp, c9_solveIY]
  have h1 : (compute stateIYBlank).state.IY = some 120 := by
    rw [compute_of_single stateIYBlank TVMVar.IY hf hb]
    simp only [solveBlank, hcs]
    simp [setReg, stateIYBlank]
  have hcvs : computeVarSwitch TVMVar.IY
      (setReg { stateIYBlank with computeArmed := false } TVMVar.IY none) = some 0 := by
    have hexp : computeVarSwitch TVMVar.IY
        (setReg { stateIYBlank with computeArmed := false } TVMVar.IY none) =
        some (solveIYSwapped 1 100 0 110 12 12 false) := by
      dsimp only [computeVarSwitch, setReg, stateIYBlank, Option.getD_some]
    rw [hexp, c9_solveIYSwapped]
  have h2 : (computeVariable TVMVar.IY stateIYBlank).state.IY = some 0 := by
    rw [computeVariable_of_some TVMVar.IY stateIYBlank 0 hf hcvs]
    simp [setReg, stateIYBlank]
  refine ⟨h1, h2, ?_⟩
  rw [h1, h2]
  simp only [ne_eq, Option.some.injEq]
  norm_num

/-- A state with all five registers set, valid frequencies and a
recorded last-computed variable (`FV`). -/
def stateAllSet : CalcState :=
  ⟨some 1, some 0, some 100, some 10, some 999, 12, 12, false, some TVMVar.FV, false⟩

/-- C7 counterexample.  On a state with valid frequencies, zero unset
registers and `lastComputedVar = FV` recorded, pressing CPT does not
error: it recomputes `FV` and overwrites the stored `999` with the
computed `110`. -/
theorem C7_counterexample :
    0 < stateAllSet.cy ∧ 0 < stateAllSet.py ∧ blankVars stateAllSet = [] ∧
      (compute stateAllSet).outcome = .success ∧
      (compute stateAllSet).state.FV = some 110 ∧ stateAllSet.FV = some 999 := by
  have hf : ¬ (stateAllSet.py ≤ 0 ∨ stateAllSet.cy ≤ 0) := by
    norm_num [stateAllSet]
  have hb : blankVars stateAllSet = [] := rfl
  have hl : stateAllSet.lastComputedVar = some TVMVar.FV := rfl
  have hcvs : computeVarSwitch TVMVar.FV
      (setReg { stateAllSet with computeArmed := false } TVMVar.FV none) =
      some 110 := by
    have hexp : computeVarSwitch TVMVar.FV
        (setReg { stateAllSet with computeArmed := false } TVMVar.FV none) =
        some (solveFV 1 (getPeriodicRate 0 12 12) 100 10 false) := by
      dsimp only [computeVarSwitch, setReg, stateAllSet, Option.getD_some]
    have hval : solveFV 1 (getPeriodicRate 0 12 12) 100 10 false = 110 := by
      norm_num [getPeriodicRate, solveFV, annuityFactor, powq]
    rw [hexp, hval]
  have heval : compute stateAllSet =
      ⟨⟨some 1, some 0, some 100, some 10, some 110, 12, 12, false,
        some TVMVar.FV, false⟩, .success⟩ := by
    rw [compute_of_nil_some stateAllSet TVMVar.FV hf hb hl,
      computeVariable_of_some TVMVar.FV stateAllSet 110 hf hcvs]
    simp [setReg, stateAllSet]
  refine ⟨by norm_num [stateAllSet], by norm_num [stateAllSet], hb, ?_, ?_, rfl⟩
  · rw [heval]
  · rw [heval]

/-- C7 (amended).  With valid frequencies: zero unset registers and no
recorded last-computed variable arms CPT mode and assigns nothing; zero
unset registers with a recorded last-computed variable recomputes that
variable (which can assign a value — contrary to the claim's "error");
more than one unset register errors with no assignment; exactly one
unset register proceeds to solving. -/
theorem C7_solve_dispatch (s : CalcState) (hcy : 0 < s.cy) (hpy : 0 < s.py) :
    (blankVars s = [] → s.lastComputedVar = none →
      compute s = ⟨{ s with computeArmed := true }, .armed⟩) ∧
    (∀ v, blankVars s = [] → s.lastComputedVar = some v →
      compute s = computeVariable v s) ∧
    (∀ v1 v2 l, blankVars s = v1 :: v2 :: l → compute s = ⟨s, .errMultiBlank⟩) ∧
    (∀ v, blankVars s = [v] → compute s = solveBlank v s) := by
  have hf : ¬ (s.py ≤ 0 ∨ s.cy ≤ 0) := by
    push_neg
    exact ⟨hpy, hcy⟩
  refine ⟨fun hb hl => ?_, fun v hb hl => ?_, fun v1 v2 l hb => ?_, fun v hb => ?_⟩
  · simp only [compute, hb, hl]
    rw [if_neg hf]
  · simp only [compute, hb, hl]
    rw [if_neg hf]
  · simp only [compute, hb]
    rw [if_neg hf]
  · simp only [compute, hb]
    rw [if_neg hf]

/-- Witness for C7 (amended): a state with all registers set, no
last-computed variable, and valid frequencies arms CPT mode and leaves
the state otherwise unchanged. -/
theorem C7_witness :
    compute ⟨some 1, some 5, some 100, some 10, some 999, 12, 12, false, none, false⟩ =
      ⟨⟨some 1, some 5, some 100, some 10, some 999, 12, 12, false, none, true⟩,
        .armed⟩ :=
  (C7_solve_dispatch _ (by norm_num) (by norm_num)).1 rfl rfl

lemma computeVariable_not_success (v : TVMVar) (s : CalcState) :
    (computeVariable v s).outcome ≠ .success →
      regs (computeVariable v s).state = regs s := by
  simp only [computeVariable]
  split_ifs with hf
  · intro _
    rfl
  · rcases hm : computeVarSwitch v (setReg { s with computeArmed := false } v none) with
      _ | r <;> simp only [hm] <;> intro h
    · trivial
    · exact absurd rfl h

/-- C10.  Failure atomicity: whenever `compute` or `computeVariable`
does not succeed (invalid frequencies, wrong count of unset registers,
armed-mode prompt, or a non-finite result), the five TVM registers are
unchanged; in particular `computeVariable` restores the temporarily
nulled target register.  (The embedded fragment has no throwing
operations, so the source's `catch` branches are unreachable here.) -/
theorem C10_failure_atomicity (s : CalcState) (v : TVMVar) :
    ((compute s).outcome ≠ .success → regs (compute s).state = regs s) ∧
    ((computeVariable v s).outcome ≠ .success →
      regs (computeVariable v s).state = regs s) := by
  refine ⟨?_, computeVariable_not_success v s⟩
  simp only [compute]
  split_ifs with hf
  · intro _
    rfl
  · rcases hb : blankVars s with _ | ⟨v1, _ | ⟨v2, rest⟩⟩
    · simp only
      rcases hl : s.lastComputedVar with _ | v'
      · intro _
        rfl
      · exact computeVariable_not_success v' s
    · simp only [solveBlank]
      rcases hm : computeSwitch v1 s with _ | r <;> simp only [hm] <;> intro h
      · trivial
      · exact absurd rfl h
    · intro _
      rfl

/-- Witness for C10: a state with unset (zero) frequencies fails with
`errFreq` and every register is unchanged. -/
theorem C10_witness :
    (compute ⟨some 1, some 5, some 100, some 10, some 999, 0, 0, false, none, false⟩).outcome ≠
        Outcome.success ∧
      regs (compute
          ⟨some 1, some 5, some 100, some 10, some 999, 0, 0, false, none, false⟩).state =
        regs ⟨some 1, some 5, some 100, some 10, some 999, 0, 0, false, none, false⟩ := by
  have hout : (compute
      ⟨some 1, some 5, some 100, some 10, some 999, 0, 0, false, none, false⟩).outcome =
      Outcome.errFreq := by
    simp only [compute]
    rw [if_pos (by norm_num)]
  have hne : (compute
      ⟨some 1, some 5, some 100, some 10, some 999, 0, 0, false, none, false⟩).outcome ≠
      Outcome.success := by
    rw [hout]
    simp
  exact ⟨hne,
    (C10_failure_atomicity
      ⟨some 1, some 5, some 100, some 10, some 999, 0, 0, false, none, false⟩
      TVMVar.FV).1 hne⟩

end TVM
